import Mathlib

/-!
Shallow embedding of the teams-ai repository slice:
* `src/python/packages/ai/teams/ai/planner/predicted_do_command.py`
  (`PredictedDoCommand` and its `from_dict` parser),
* `src/python/samples/light/src/bot.py` (the light-bot action handlers
  `on_lights_on`, `on_lights_off`, `on_pause`),
together with the components the specification describes but whose code is
not part of the provided sources (the `CommandModel.parse` discriminant
dispatcher, the `PlanExecutor`, and the `HistoryTracker` rendering); those
are modelled from the spec and marked as such in their doc comments.
-/

/-- A Python runtime value, as far as the parsed planner records need:
strings, integers, booleans, `None`, and nested string-keyed mappings.
Python dataclasses do not enforce their annotations at runtime, so parsed
fields carry raw `Value`s. -/
inductive Value where
  | str (s : String)
  | int (n : Int)
  | boolV (b : Bool)
  | null
  | dict (entries : List (String × Value))

/-- A raw planner record: a Python mapping from string keys to values.
Python dict keys are unique; lookup is association-list lookup. -/
def RawRecord : Type := List (String × Value)

/-- The errors the embedded code can raise: Python's `KeyError` from a
mapping subscript on an absent key (it names the missing key), and the
spec's `MalformedCommand` error taxonomy entry (§7), which names the
offending field. -/
inductive PyError where
  | keyError (field : String)
  | malformedCommand (field : String)

/-- `CommandType` (imported by `predicted_do_command.py` from
`command_type.py`, which is not among the provided sources): the
discriminant tag of the command union, with the `DO` and `SAY` variants
the spec describes. -/
inductive CommandType where
  | DO
  | SAY
  deriving DecidableEq, Repr

/-- `PredictedDoCommand` from `predicted_do_command.py`: a dataclass with
a `type` tag, an `action`, and an `entities` mapping.  The base class
`PredictedCommand` carries no data relevant here; the `action: str` and
`entities: Dict[str, Any]` annotations are not checked at runtime, so the
fields hold raw values. -/
structure PredictedDoCommand where
  type : CommandType
  action : Value
  entities : Value

/-- `PredictedDoCommand.from_dict` from `predicted_do_command.py`:

    return PredictedDoCommand(
        type=CommandType.DO, action=data["action"], entities=data["entities"]
    )

Python evaluates `data["action"]` first; a subscript on an absent key
raises `KeyError` naming that key. -/
def PredictedDoCommand.from_dict (data : RawRecord) :
    Except PyError PredictedDoCommand :=
  match List.lookup "action" data with
  | none => Except.error (PyError.keyError "action")
  | some a =>
    match List.lookup "entities" data with
    | none => Except.error (PyError.keyError "entities")
    | some e => Except.ok { type := CommandType.DO, action := a, entities := e }

/-- Whether a parse outcome failed with the spec's `MalformedCommand`
error kind. -/
def errIsMalformed {α : Type} : Except PyError α → Bool
  | Except.error (PyError.malformedCommand _) => true
  | _ => false

/-- The `CommandModel` tagged union of §3: a DO command or a SAY command. -/
inductive CommandModel where
  | doCmd (c : PredictedDoCommand)
  | sayCmd (response : Value)

/-- Whether a `CommandModel` is the DO variant. -/
def CommandModel.isDo : CommandModel → Bool
  | CommandModel.doCmd _ => true
  | CommandModel.sayCmd _ => false

/-- Whether a `CommandModel` is the SAY variant. -/
def CommandModel.isSay : CommandModel → Bool
  | CommandModel.doCmd _ => false
  | CommandModel.sayCmd _ => true

/-- Modelled from the spec: the `CommandModel.parse` discriminant
dispatcher of §4.2 is not among the provided sources (only the DO-payload
parser `PredictedDoCommand.from_dict` is).  Per §4.2 it "inspects a
discriminant field; for DO, requires `action` and `entities` ...; for SAY,
requires a response text field" and fails with a `MalformedCommand` error
naming the offending field when the discriminant is unrecognized or the
SAY payload is absent; the DO branch delegates to the source's
`from_dict`, whose errors propagate. -/
def CommandModel.parse (data : RawRecord) : Except PyError CommandModel :=
  match List.lookup "type" data with
  | some (Value.str s) =>
    if s = "DO" then Except.map CommandModel.doCmd (PredictedDoCommand.from_dict data)
    else if s = "SAY" then
      match List.lookup "response" data with
      | some r => Except.ok (CommandModel.sayCmd r)
      | none => Except.error (PyError.malformedCommand "response")
    else Except.error (PyError.malformedCommand "type")
  | _ => Except.error (PyError.malformedCommand "type")

/-- Whether a raw record carries a recognized discriminant tag: a `type`
field holding the string "DO" or "SAY".  Mirrors the dispatch of
`CommandModel.parse`. -/
def recognizedType (data : RawRecord) : Bool :=
  match List.lookup "type" data with
  | some (Value.str s) => s = "DO" || s = "SAY"
  | _ => false

/-- C1 counterexample: the empty record lacks `action`, and
`PredictedDoCommand.from_dict` fails on it with Python's
`KeyError("action")`, not with a `MalformedCommand` error. -/
theorem c1_counterexample :
    List.lookup "action" ([] : RawRecord) = none ∧
    PredictedDoCommand.from_dict [] = Except.error (PyError.keyError "action") ∧
    errIsMalformed (PredictedDoCommand.from_dict []) = false :=
  ⟨rfl, rfl, rfl⟩

/-- C1 (amended): for every raw DO record in which `action` is absent,
`PredictedDoCommand.from_dict` fails with a `KeyError` naming `action`;
for every record in which `action` is present but `entities` is absent,
it fails with a `KeyError` naming `entities`. -/
theorem c1_keyerror_names_missing_field (data : RawRecord) :
    (List.lookup "action" data = none →
      PredictedDoCommand.from_dict data = Except.error (PyError.keyError "action")) ∧
    (∀ a, List.lookup "action" data = some a → List.lookup "entities" data = none →
      PredictedDoCommand.from_dict data = Except.error (PyError.keyError "entities")) := by
  constructor
  · intro h
    unfold PredictedDoCommand.from_dict
    rw [h]
  · intro a ha he
    unfold PredictedDoCommand.from_dict
    rw [ha, he]

/-- C1 witness: concrete records exercising both missing-field branches. -/
theorem c1_keyerror_witness :
    PredictedDoCommand.from_dict [] = Except.error (PyError.keyError "action") ∧
    PredictedDoCommand.from_dict [("action", Value.str "LightsOn")] =
      Except.error (PyError.keyError "entities") :=
  ⟨(c1_keyerror_names_missing_field []).1 rfl,
   (c1_keyerror_names_missing_field [("action", Value.str "LightsOn")]).2
     (Value.str "LightsOn") rfl rfl⟩

/-- C2: for every raw planner record whose discriminant is unrecognized
(no `type` field holding "DO" or "SAY"), `CommandModel.parse` fails with
a distinct `MalformedCommand` error naming `type` rather than returning a
command value. -/
theorem c2_unrecognized_type_rejected (data : RawRecord)
    (h : recognizedType data = false) :
    CommandModel.parse data = Except.error (PyError.malformedCommand "type") := by
  unfold recognizedType at h
  unfold CommandModel.parse
  cases hl : List.lookup "type" data with
  | none => rfl
  | some v =>
    rw [hl] at h
    cases v with
    | str s =>
      rw [Bool.or_eq_false_iff] at h
      have h1 : ¬s = "DO" := by
        intro hs
        rw [hs] at h
        exact absurd h.1 (by simp)
      have h2 : ¬s = "SAY" := by
        intro hs
        rw [hs] at h
        exact absurd h.2 (by simp)
      simp [h1, h2]
    | int n => rfl
    | boolV b => rfl
    | null => rfl
    | dict entries => rfl

/-- C2 witness: a record whose `type` is the unrecognized tag "BOGUS" is
rejected even though its DO payload is complete. -/
theorem c2_unrecognized_type_witness :
    CommandModel.parse
        [("type", Value.str "BOGUS"), ("action", Value.str "x"),
         ("entities", Value.dict [])] =
      Except.error (PyError.malformedCommand "type") :=
  c2_unrecognized_type_rejected
    [("type", Value.str "BOGUS"), ("action", Value.str "x"),
     ("entities", Value.dict [])] rfl

/-- C3: for every raw record containing `action` and `entities`,
`PredictedDoCommand.from_dict` returns a DO-variant command whose
`action` and `entities` fields equal the input's values exactly. -/
theorem c3_well_formed_do_roundtrip (data : RawRecord) (a e : Value)
    (ha : List.lookup "action" data = some a)
    (he : List.lookup "entities" data = some e) :
    PredictedDoCommand.from_dict data =
      Except.ok { type := CommandType.DO, action := a, entities := e } := by
  unfold PredictedDoCommand.from_dict
  rw [ha, he]

/-- C3 witness: a concrete well-formed DO record parses to the matching
command. -/
theorem c3_well_formed_do_witness :
    PredictedDoCommand.from_dict
        [("action", Value.str "LightsOn"), ("entities", Value.dict [])] =
      Except.ok { type := CommandType.DO, action := Value.str "LightsOn",
                  entities := Value.dict [] } :=
  c3_well_formed_do_roundtrip
    [("action", Value.str "LightsOn"), ("entities", Value.dict [])]
    (Value.str "LightsOn") (Value.dict []) rfl rfl

/-- C4: every `PredictedDoCommand` returned by `from_dict` carries the
`DO` discriminant tag, and every `CommandModel` value produced by
`CommandModel.parse` is exactly one of the two variants. -/
theorem c4_tag_and_single_variant :
    (∀ (data : RawRecord) (c : PredictedDoCommand),
      PredictedDoCommand.from_dict data = Except.ok c → c.type = CommandType.DO) ∧
    (∀ (data : RawRecord) (m : CommandModel),
      CommandModel.parse data = Except.ok m →
        (m.isDo || m.isSay) = true ∧ (m.isDo && m.isSay) = false) := by
  constructor
  · intro data c h
    unfold PredictedDoCommand.from_dict at h
    cases ha : List.lookup "action" data with
    | none => rw [ha] at h; exact absurd h (by simp)
    | some a =>
      rw [ha] at h
      cases he : List.lookup "entities" data with
      | none => rw [he] at h; exact absurd h (by simp)
      | some e =>
        rw [he] at h
        cases h
        rfl
  · intro data m _
    cases m with
    | doCmd c => exact ⟨rfl, rfl⟩
    | sayCmd r => exact ⟨rfl, rfl⟩

/-- C4 witness: the command parsed from a concrete well-formed DO record
carries the `DO` tag. -/
theorem c4_tag_witness :
    ({ type := CommandType.DO, action := Value.str "x",
       entities := Value.dict [] } : PredictedDoCommand).type = CommandType.DO :=
  c4_tag_and_single_variant.1
    [("action", Value.str "x"), ("entities", Value.dict [])]
    { type := CommandType.DO, action := Value.str "x", entities := Value.dict [] }
    rfl

/-- A registered action handler, as §6 exposes it to applications: it
receives the turn state, the entity/argument data and the action name, and
yields the mutated state, the outward messages it sent, and its boolean
continuation result.  (The turn context only carries `send_activity`,
which the outward-message component models.) -/
def Handler (σ : Type) : Type := σ → Value → String → σ × List String × Bool

/-- A plan command as the `PlanExecutor` of §4.3 consumes it: a DO command
naming an action with entity data, or a SAY command with response text. -/
inductive Cmd where
  | doCmd (action : String) (entities : Value)
  | sayCmd (response : String)

/-- The action name a command dispatches under (SAY commands use the
default emit path; the synthetic name only labels failures). -/
def Cmd.name : Cmd → String
  | Cmd.doCmd a _ => a
  | Cmd.sayCmd _ => "SAY"

/-- Terminal executor states of the §4.3 state machine. -/
inductive PlanStatus where
  | completed
  | halted
  | failed (idx : Nat) (action : String)
  deriving DecidableEq, Repr

/-- The outcome of running (a suffix of) a plan: final state, outward
messages in emission order, the indices of the commands that were
dispatched, and the terminal status. -/
structure ExecResult (σ : Type) where
  state : σ
  messages : List String
  executed : List Nat
  status : PlanStatus

/-- Modelled from the spec: one dispatch step of the `PlanExecutor`
(§4.3), which is not among the provided sources.  A DO command resolves
its action in the registry — `none` is the `UnknownAction` failure — and
invokes the handler with `(state, entities, action_name)`; a SAY command's
default effect is emitting the response outward and continuing. -/
def dispatch {σ : Type} (registry : List (String × Handler σ)) (s : σ) :
    Cmd → Option (σ × List String × Bool)
  | Cmd.doCmd a ents => Option.map (fun h => h s ents a) (List.lookup a registry)
  | Cmd.sayCmd r => some (s, [r], true)

/-- The continuation flag of a dispatch outcome. -/
def contOf {σ : Type} (r : σ × List String × Bool) : Bool := r.2.2

/-- Modelled from the spec: the sequential drive loop of the
`PlanExecutor` (§4.3), which is not among the provided sources.  Commands
run strictly in sequence; an unresolvable action fails the plan at its
index; a handler continuation of `false` halts the plan, and the
remaining commands are skipped, not dispatched, not recorded as failed. -/
def runFrom {σ : Type} (registry : List (String × Handler σ)) :
    Nat → σ → List String → List Nat → List Cmd → ExecResult σ
  | _, s, msgs, done, [] => ⟨s, msgs, done, PlanStatus.completed⟩
  | i, s, msgs, done, c :: rest =>
    match dispatch registry s c with
    | none => ⟨s, msgs, done, PlanStatus.failed i (Cmd.name c)⟩
    | some (s', out, cont) =>
      if cont then runFrom registry (i + 1) s' (msgs ++ out) (done ++ [i]) rest
      else ⟨s', msgs ++ out, done ++ [i], PlanStatus.halted⟩

/-- Modelled from the spec: `PlanExecutor.run` (§4.3) over a whole plan. -/
def runPlan {σ : Type} (registry : List (String × Handler σ)) (s : σ)
    (plan : List Cmd) : ExecResult σ :=
  runFrom registry 0 s [] [] plan

/-- Drive-loop halting lemma: if every command up to index `k` dispatches
successfully and its continuation is `true` strictly before `k` and
`false` at `k`, the loop records exactly the indices `i, i+1, ..., i+k`
and halts. -/
theorem runFrom_halts {σ : Type} (registry : List (String × Handler σ)) :
    ∀ (cmds : List Cmd) (k i : Nat) (s : σ) (msgs : List String)
      (done : List Nat), k < cmds.length →
      (∀ j (hj : j < cmds.length), j ≤ k → ∀ s',
        Option.map contOf (dispatch registry s' (cmds.get ⟨j, hj⟩)) =
          some (decide (j < k))) →
      (runFrom registry i s msgs done cmds).executed =
          done ++ List.range' i (k + 1) ∧
        (runFrom registry i s msgs done cmds).status = PlanStatus.halted := by
  intro cmds
  induction cmds with
  | nil => intro k i s msgs done hk _; exact absurd hk (by simp)
  | cons c rest ih =>
    intro k i s msgs done hk hdisp
    have h0 := hdisp 0 (by simp) (Nat.zero_le k) s
    cases hd : dispatch registry s c with
    | none =>
      rw [List.get] at h0
      rw [hd] at h0
      exact absurd h0 (by simp [Option.map])
    | some r =>
      obtain ⟨s', out, cont⟩ := r
      rw [List.get] at h0
      rw [hd] at h0
      have hcont : cont = decide (0 < k) := by
        simpa [Option.map, contOf] using h0
      cases k with
      | zero =>
        have hcf : cont = false := by simpa using hcont
        subst hcf
        simp only [runFrom, hd]
        constructor
        · simp [List.range'_succ]
        · rfl
      | succ k' =>
        have hct : cont = true := by simpa using hcont
        subst hct
        simp only [runFrom, hd, if_pos]
        have hk' : k' < rest.length := by
          simpa [Nat.succ_lt_succ_iff] using hk
        have hdisp' : ∀ j (hj : j < rest.length), j ≤ k' → ∀ s'',
            Option.map contOf (dispatch registry s'' (rest.get ⟨j, hj⟩)) =
              some (decide (j < k')) := by
          intro j hj hjk s''
          have := hdisp (j + 1) (by simpa [Nat.succ_lt_succ_iff] using hj)
            (Nat.succ_le_succ hjk) s''
          rw [List.get] at this
          simpa [Nat.succ_lt_succ_iff] using this
        obtain ⟨he, hs⟩ := ih k' (i + 1) s' (msgs ++ out) (done ++ [i]) hk' hdisp'
        refine ⟨?_, hs⟩
        rw [he, List.append_assoc]
        congr 1

/-- C5: for every plan in which commands before index `k` signal
continuation `true` and the command at `k` signals continuation `false`
(each dispatching successfully), the executor dispatches exactly commands
`0..k`; the plan halts, so commands `k+1..N-1` are never dispatched and
are not recorded as failed. -/
theorem c5_halts_after_false_continuation {σ : Type}
    (registry : List (String × Handler σ)) (plan : List Cmd) (s0 : σ)
    (k : Nat) (hk : k < plan.length)
    (hdisp : ∀ j (hj : j < plan.length), j ≤ k → ∀ s,
      Option.map contOf (dispatch registry s (plan.get ⟨j, hj⟩)) =
        some (decide (j < k))) :
    (runPlan registry s0 plan).executed = List.range (k + 1) ∧
      (runPlan registry s0 plan).status = PlanStatus.halted := by
  obtain ⟨he, hs⟩ := runFrom_halts registry plan k 0 s0 [] [] hk hdisp
  refine ⟨?_, hs⟩
  unfold runPlan
  rw [he, List.nil_append, List.range_eq_range']

/-- C5 witness: a three-command plan whose second handler signals `false`
dispatches exactly commands 0 and 1 and halts. -/
theorem c5_halts_witness :
    (runPlan
        [("go", fun (s : Bool) _ _ => (s, [], true)),
         ("stop", fun (s : Bool) _ _ => (s, [], false))] false
        [Cmd.doCmd "go" Value.null, Cmd.doCmd "stop" Value.null,
         Cmd.doCmd "go" Value.null]).executed = List.range 2 ∧
      (runPlan
        [("go", fun (s : Bool) _ _ => (s, [], true)),
         ("stop", fun (s : Bool) _ _ => (s, [], false))] false
        [Cmd.doCmd "go" Value.null, Cmd.doCmd "stop" Value.null,
         Cmd.doCmd "go" Value.null]).status = PlanStatus.halted :=
  c5_halts_after_false_continuation
    [("go", fun (s : Bool) _ _ => (s, [], true)),
     ("stop", fun (s : Bool) _ _ => (s, [], false))]
    [Cmd.doCmd "go" Value.null, Cmd.doCmd "stop" Value.null,
     Cmd.doCmd "go" Value.null] false 1 (by simp)
    (by
      intro j hj hjk s
      match j, hjk with
      | 0, _ => rfl
      | 1, _ => rfl)

/-- The conversation-layer state of the light sample (`AppTurnState`
conversation scope in `bot.py`): the `lights_on` flag. -/
structure AppConversationState where
  lights_on : Bool
  deriving DecidableEq, Repr

/-- `on_lights_on` from `bot.py`: sets
`state.conversation.lights_on = True`, sends "[lights on]" outward via
`context.send_activity`, and returns `True`. -/
def on_lights_on : Handler AppConversationState :=
  fun s _ _ => ({ s with lights_on := true }, ["[lights on]"], true)

/-- `on_lights_off` from `bot.py`: sets
`state.conversation.lights_on = False`, sends "[lights off]" outward via
`context.send_activity`, and returns `True`. -/
def on_lights_off : Handler AppConversationState :=
  fun s _ _ => ({ s with lights_on := false }, ["[lights off]"], true)

/-- The registry of the light scenario: `LightsOn` bound to the source's
`on_lights_on` handler. -/
def lightRegistry : List (String × Handler AppConversationState) :=
  [("LightsOn", on_lights_on)]

/-- The scenario plan of §8: `[DO("LightsOn", {}), SAY("done")]`. -/
def lightPlan : List Cmd :=
  [Cmd.doCmd "LightsOn" (Value.dict []), Cmd.sayCmd "done"]

/-- C7 counterexample: the spec's scenario claims the outward messages
are `[]` then `"done"` (so the full transcript is `["done"]`), but the
source's `LightsOn` handler also sends "[lights on]", so the transcript
is not `["done"]`. -/
theorem c7_counterexample :
    (runPlan lightRegistry { lights_on := false } lightPlan).messages ≠
      ["done"] := by
  decide

/-- C7 (amended): executing `[DO("LightsOn", {}), SAY("done")]` against
the registry binding `LightsOn` to the source's handler runs both
commands to completion, produces outward messages "[lights on]" (sent by
the handler) then "done", and leaves the final state with
`lights_on = true`. -/
theorem c7_light_scenario :
    (runPlan lightRegistry { lights_on := false } lightPlan).executed =
        [0, 1] ∧
      (runPlan lightRegistry { lights_on := false } lightPlan).messages =
        ["[lights on]", "done"] ∧
      (runPlan lightRegistry { lights_on := false } lightPlan).state.lights_on =
        true ∧
      (runPlan lightRegistry { lights_on := false } lightPlan).status =
        PlanStatus.completed := by
  refine ⟨rfl, rfl, rfl, rfl⟩

/-- C9: for every state, entity data, and action name, `on_lights_on`
sets `lights_on` to `true`, `on_lights_off` sets it to `false`, and both
return continuation `true`. -/
theorem c9_light_handlers (s : AppConversationState) (data : Value)
    (name : String) :
    (on_lights_on s data name).1.lights_on = true ∧
      contOf (on_lights_on s data name) = true ∧
      (on_lights_off s data name).1.lights_on = false ∧
      contOf (on_lights_off s data name) = true :=
  ⟨rfl, rfl, rfl, rfl⟩

/-- The entity data passed to `on_pause` in `bot.py`: `data` may be falsy
(`none`) or carry a `time` attribute that is itself absent/`None`
(`none`) or an integer. -/
structure PauseData where
  time : Option Int

/-- The `time_ms` computation of `on_pause` in `bot.py`:

    time_ms = int(data.time) if data and data.time else 1000

`data and data.time` is Python truthiness: a falsy `data`, an absent or
`None` `time`, or a `time` of `0` all select the default `1000`; `int`
on an integer is the identity. -/
def pause_time_ms (data : Option PauseData) : Int :=
  match data with
  | some d =>
    match d.time with
    | some t => if t ≠ 0 then t else 1000
    | none => 1000
  | none => 1000

/-- `on_pause` from `bot.py`: announces
`f"[pausing for {time_ms / 1000} seconds]"` (Python true division, so
`time_ms / 1000` seconds as a rational), then calls `time.sleep(time_ms)`
— `time.sleep` takes seconds, so `time_ms` seconds are slept — and
returns `True`.  The components are (announced seconds, slept seconds,
continuation). -/
def on_pause (data : Option PauseData) : ℚ × ℚ × Bool :=
  (((pause_time_ms data : Int) : ℚ) / 1000, ((pause_time_ms data : Int) : ℚ), true)

/-- C8: for every invocation of `on_pause` with truthy `data` and truthy
`data.time = t`, the slept duration is `t` seconds, the announced
duration is `t / 1000` seconds, and the slept duration is 1000 times the
announced one. -/
theorem c8_pause_sleeps_thousandfold (data : Option PauseData)
    (d : PauseData) (t : Int) (hd : data = some d) (ht : d.time = some t)
    (hnz : t ≠ 0) :
    (on_pause data).2.1 = (t : ℚ) ∧
      (on_pause data).1 = (t : ℚ) / 1000 ∧
      (on_pause data).2.1 = 1000 * (on_pause data).1 := by
  subst hd
  have hms : pause_time_ms (some d) = t := by
    simp only [pause_time_ms, ht]
    rw [if_pos hnz]
  refine ⟨?_, ?_, ?_⟩
  · show ((pause_time_ms (some d) : Int) : ℚ) = (t : ℚ)
    rw [hms]
  · show ((pause_time_ms (some d) : Int) : ℚ) / 1000 = (t : ℚ) / 1000
    rw [hms]
  · show ((pause_time_ms (some d) : Int) : ℚ) =
      1000 * (((pause_time_ms (some d) : Int) : ℚ) / 1000)
    rw [mul_comm, div_mul_cancel₀]
    norm_num

/-- C8 witness: a requested time of 500 sleeps 500 seconds while
announcing half a second. -/
theorem c8_pause_witness :
    (on_pause (some { time := some 500 })).2.1 = (500 : ℚ) ∧
      (on_pause (some { time := some 500 })).1 = (500 : ℚ) / 1000 ∧
      (on_pause (some { time := some 500 })).2.1 =
        1000 * (on_pause (some { time := some 500 })).1 :=
  c8_pause_sleeps_thousandfold (some { time := some 500 }) { time := some 500 }
    500 rfl rfl (by decide)

/-- C10: whenever `data` is falsy or `data.time` is falsy (absent, None,
or an explicit 0), the pause duration used is the default 1000; in
particular a requested time of 0 is replaced by 1000. -/
theorem c10_pause_default (data : Option PauseData)
    (h : data = none ∨ ∃ d, data = some d ∧ (d.time = none ∨ d.time = some 0)) :
    pause_time_ms data = 1000 := by
  rcases h with h | ⟨d, hd, htime⟩
  · subst h
    rfl
  · subst hd
    rcases htime with ht | ht
    · simp only [pause_time_ms, ht]
    · simp only [pause_time_ms, ht]
      simp

/-- C10 witness: an explicit requested time of 0 is replaced by the
default 1000. -/
theorem c10_pause_default_witness :
    pause_time_ms (some { time := some 0 }) = 1000 :=
  c10_pause_default (some { time := some 0 })
    (Or.inr ⟨{ time := some 0 }, rfl, Or.inr rfl⟩)

/-- Joining a list of rendered history entries with a separator string,
as §4.5's final step produces "chronological output joined by
`separator`". -/
def joinSep (sep : String) : List String → String
  | [] => ""
  | [x] => x
  | x :: y :: rest => x ++ sep ++ joinSep sep (y :: rest)

/-- Modelled from the spec: the backward accumulation of
`HistoryTracker.render`/`to_str` (§4.5), whose code is not among the
provided sources, after the first entry has been retained: each further
entry costs its length plus one separator, and the walk stops at the
first entry whose cost would exceed the budget. -/
def takeRecentRest (budget sepLen : Nat) : Nat → List String → List String
  | _, [] => []
  | used, e :: rest =>
    if used + (e.length + sepLen) ≤ budget then
      e :: takeRecentRest budget sepLen (used + (e.length + sepLen)) rest
    else []

/-- Modelled from the spec: `HistoryTracker.render`/`to_str` (§4.5)
"walks entries from most recent backward, accumulating until the budget
would be exceeded"; this is that walk on the reversed entry list.  The
first retained entry costs its own length, later entries also cost a
separator. -/
def takeRecent (budget sepLen : Nat) : List String → List String
  | [] => []
  | e :: rest =>
    if e.length ≤ budget then e :: takeRecentRest budget sepLen e.length rest
    else []

/-- The retained entries of a render: walk the reversed (most recent
first) entries, then reverse back to chronological order (§4.5 "then
reverses to produce chronological output"). -/
def keptEntries (maxChars : Nat) (sep : String) (entries : List String) :
    List String :=
  (takeRecent maxChars sep.length entries.reverse).reverse

/-- Modelled from the spec: `HistoryTracker.to_str(max_tokens, ...)` as
`bot.py` calls it and §4.5 specifies `render(maxChars, tokenizer,
separator)`: the retained chronological suffix joined by the separator.
Entries are modelled by their rendered text; the budget counts
characters, as the claim reads it. -/
def HistoryTracker.to_str (maxChars : Nat) (sep : String)
    (entries : List String) : String :=
  joinSep sep (keptEntries maxChars sep entries)

/-- Length of a separator-joined list: the entry lengths plus one
separator between consecutive entries. -/
theorem joinSep_length (sep : String) :
    ∀ l : List String,
      (joinSep sep l).length =
        (l.map String.length).sum + sep.length * (l.length - 1)
  | [] => by simp [joinSep]
  | [x] => by simp [joinSep]
  | x :: y :: rest => by
    have ih := joinSep_length sep (y :: rest)
    simp only [joinSep, String.length_append] at ih ⊢
    rw [ih]
    simp only [List.map_cons, List.sum_cons, List.length_cons,
      Nat.add_sub_cancel]
    rw [Nat.mul_succ]
    ring

/-- The budget cost of a list of entries when each also pays for one
separator. -/
def costAll (sepLen : Nat) (l : List String) : Nat :=
  (l.map (fun e => e.length + sepLen)).sum

/-- `costAll` as entry lengths plus separators. -/
theorem costAll_eq (sepLen : Nat) (l : List String) :
    costAll sepLen l = (l.map String.length).sum + sepLen * l.length := by
  induction l with
  | nil => simp [costAll]
  | cons e rest ih =>
    simp only [costAll, List.map_cons, List.sum_cons, List.length_cons] at ih ⊢
    rw [ih, Nat.mul_succ]
    ring

/-- The accumulation never retains more than the remaining budget
allows. -/
theorem takeRecentRest_le (budget sepLen : Nat) :
    ∀ (l : List String) (used : Nat), used ≤ budget →
      used + costAll sepLen (takeRecentRest budget sepLen used l) ≤ budget := by
  intro l
  induction l with
  | nil => intro used hu; simpa [takeRecentRest, costAll] using hu
  | cons e rest ih =>
    intro used hu
    simp only [takeRecentRest]
    by_cases hfit : used + (e.length + sepLen) ≤ budget
    · rw [if_pos hfit]
      have := ih (used + (e.length + sepLen)) hfit
      simp only [costAll, List.map_cons, List.sum_cons] at this ⊢
      omega
    · rw [if_neg hfit]
      simpa [costAll] using hu

/-- The rest-walk retains an initial segment of its input. -/
theorem takeRecentRest_take (budget sepLen : Nat) :
    ∀ (l : List String) (used : Nat),
      ∃ m, m ≤ l.length ∧ takeRecentRest budget sepLen used l = l.take m := by
  intro l
  induction l with
  | nil => intro used; exact ⟨0, by simp, rfl⟩
  | cons e rest ih =>
    intro used
    simp only [takeRecentRest]
    by_cases hfit : used + (e.length + sepLen) ≤ budget
    · obtain ⟨m, hm, hrec⟩ := ih (used + (e.length + sepLen))
      refine ⟨m + 1, by simpa using hm, ?_⟩
      rw [if_pos hfit, hrec]
      rfl
    · exact ⟨0, by simp, by rw [if_neg hfit]; rfl⟩

/-- The walk retains an initial segment of its input. -/
theorem takeRecent_take (budget sepLen : Nat) (l : List String) :
    ∃ m, m ≤ l.length ∧ takeRecent budget sepLen l = l.take m := by
  cases l with
  | nil => exact ⟨0, by simp, rfl⟩
  | cons e rest =>
    simp only [takeRecent]
    by_cases hfit : e.length ≤ budget
    · obtain ⟨m, hm, hrec⟩ := takeRecentRest_take budget sepLen rest e.length
      refine ⟨m + 1, by simpa using hm, ?_⟩
      rw [if_pos hfit, hrec]
      rfl
    · exact ⟨0, by simp, by rw [if_neg hfit]; rfl⟩

/-- Reversing an initial segment of the reversal of a list yields a
suffix of the list. -/
theorem reverse_take_reverse {α : Type} (l : List α) (m : Nat) :
    (l.reverse.take m).reverse = l.drop (l.length - m) := by
  have happ : l =
      (l.reverse.drop m).reverse ++ (l.reverse.take m).reverse := by
    rw [← List.reverse_append, List.take_append_drop, List.reverse_reverse]
  have hA : (l.reverse.drop m).reverse.length = l.length - m := by simp
  calc (l.reverse.take m).reverse
      = List.drop (l.reverse.drop m).reverse.length
          ((l.reverse.drop m).reverse ++ (l.reverse.take m).reverse) :=
        (List.drop_left _ _).symm
    _ = l.drop (l.length - m) := by rw [hA, ← happ]

/-- C6: for every history, requested character budget, and separator, the
rendered string never exceeds the budget, and the retained entries are a
contiguous suffix of the history in chronological order (the oldest
entries are the ones dropped). -/
theorem c6_render_budget_and_suffix (entries : List String) (maxChars : Nat)
    (sep : String) :
    (HistoryTracker.to_str maxChars sep entries).length ≤ maxChars ∧
      ∃ k, keptEntries maxChars sep entries = List.drop k entries := by
  constructor
  · unfold HistoryTracker.to_str keptEntries
    cases hl : entries.reverse with
    | nil => simp [takeRecent, joinSep]
    | cons e rest =>
      simp only [takeRecent]
      by_cases hfit : e.length ≤ maxChars
      · rw [if_pos hfit]
        have hrest := takeRecentRest_le maxChars sep.length rest e.length hfit
        rw [costAll_eq] at hrest
        rw [joinSep_length]
        rw [List.map_reverse, List.sum_reverse, List.length_reverse]
        simp only [List.map_cons, List.sum_cons, List.length_cons,
          Nat.add_sub_cancel]
        omega
      · rw [if_neg hfit]
        simp [joinSep]
  · obtain ⟨m, hm, htake⟩ := takeRecent_take maxChars sep.length entries.reverse
    refine ⟨entries.length - m, ?_⟩
    unfold keptEntries
    rw [htake]
    exact reverse_take_reverse entries m

/-- C6 witness: a concrete render stays within a budget of 10 characters
and keeps a contiguous suffix. -/
theorem c6_render_witness :
    (HistoryTracker.to_str 10 ", " ["hi", "there", "friend"]).length ≤ 10 ∧
      ∃ k, keptEntries 10 ", " ["hi", "there", "friend"] =
        List.drop k ["hi", "there", "friend"] :=
  c6_render_budget_and_suffix ["hi", "there", "friend"] 10 ", "

/-- C9 witness: the light handlers at a concrete state, data, and name. -/
theorem c9_light_witness :
    (on_lights_on { lights_on := false } Value.null "LightsOn").1.lights_on =
        true ∧
      contOf (on_lights_on { lights_on := false } Value.null "LightsOn") = true ∧
      (on_lights_off { lights_on := true } Value.null "LightsOff").1.lights_on =
        false ∧
      contOf (on_lights_off { lights_on := true } Value.null "LightsOff") =
        true :=
  ⟨(c9_light_handlers { lights_on := false } Value.null "LightsOn").1,
   (c9_light_handlers { lights_on := false } Value.null "LightsOn").2.1,
   (c9_light_handlers { lights_on := true } Value.null "LightsOff").2.2.1,
   (c9_light_handlers { lights_on := true } Value.null "LightsOff").2.2.2⟩
